import Mathlib

/-!
Shallow embedding of the deck-of-cards HTTP service (src/main.go).

The service keeps, per deck, three persisted sequences: `cards` (the full
generated set), `piged` (the drawn pile, stored as `DrawnCard` values with
timestamps) and `upcoming` (the cards still to be drawn).  The SQLite store
is modelled as an association list from deck identifiers to records; every
handler is translated into a pure function that threads the store
explicitly and returns `Except` for the error paths.  Randomness
(`rand.Shuffle`) is modelled by an oracle `js : Nat → Nat` supplying the
swap partner chosen at each index, and wall-clock time by an explicit
`now : String` argument.
-/

/-- Mirrors the Go struct `Card` (code, rank, suit, image). -/
structure Card where
  code : String
  rank : String
  suit : String
  image : String
deriving DecidableEq, Repr

/-- Mirrors the Go struct `DrawnCard` (code plus draw timestamp). -/
structure DrawnCard where
  code : String
  time : String
deriving DecidableEq, Repr

/-- Mirrors the Go struct `Deck` (the JSON response shape). -/
structure Deck where
  id : String
  cards : List Card
  remaining : Nat
deriving DecidableEq, Repr

/-- One persisted row of the `decks` table: full card list (`cards`),
drawn pile (`piged`), and upcoming pile (`upcoming`). -/
structure DeckRecord where
  cards : List Card
  piged : List DrawnCard
  upcoming : List Card
deriving DecidableEq, Repr

/-- The error classes surfaced by the handlers ("Invalid number of cards" /
"Invalid count", "Deck not found", "Deck empty", "Too many Deckes",
database failures). -/
inductive ApiError where
  | invalidArgument
  | notFound
  | emptyDeck
  | tooManyDecks
  | storeFailure
deriving DecidableEq, Repr

/-- The persistent store: one record per deck id (the `decks` table). -/
abbrev Store := List (String × DeckRecord)

/-- `SELECT ... FROM decks WHERE id = ?`. -/
def lookupDeck : Store → String → Option DeckRecord
  | [], _ => none
  | (k, v) :: rest, deckID => if k = deckID then some v else lookupDeck rest deckID

/-- `UPDATE decks SET ... WHERE id = ?` (also used for the fresh INSERT,
after the duplicate-key check). -/
def updateDeck : Store → String → DeckRecord → Store
  | [], deckID, r => [(deckID, r)]
  | (k, v) :: rest, deckID, r =>
    if k = deckID then (deckID, r) :: rest else (k, v) :: updateDeck rest deckID r

/-- The digit test used by decimal parsing. -/
def isDigit (c : Char) : Bool := decide ('0' ≤ c) && decide (c ≤ '9')

/-- Decimal value of a nonempty all-digit character list; `none` otherwise. -/
def parseNatDigits (cs : List Char) : Option Nat :=
  if cs ≠ [] ∧ cs.all isDigit then
    some (cs.foldl (fun acc c => acc * 10 + (c.toNat - 48)) 0)
  else none

/-- Largest value of Go's 64-bit `int`. -/
def goIntMax : Int := 9223372036854775807

/-- Smallest value of Go's 64-bit `int`. -/
def goIntMin : Int := -9223372036854775808

/-- Model of Go's `strconv.Atoi`: optional sign, decimal digits, failure
(`none`) on empty input, stray characters or 64-bit overflow. -/
def atoi (s : String) : Option Int :=
  match s.toList with
  | '-' :: rest =>
    (parseNatDigits rest).bind fun n =>
      if (-(n : Int)) < goIntMin then none else some (-(n : Int))
  | '+' :: rest =>
    (parseNatDigits rest).bind fun n =>
      if (n : Int) > goIntMax then none else some (n : Int)
  | cs =>
    (parseNatDigits cs).bind fun n =>
      if (n : Int) > goIntMax then none else some (n : Int)

/-- The fixed rank order of `generateCards`. -/
def ranks : List String :=
  ["2", "3", "4", "5", "6", "7", "8", "9", "10", "j", "q", "k", "a"]

/-- The fixed suit order of `generateCards`. -/
def suits : List String := ["h", "d", "c", "s"]

/-- The card built in the inner loop of `generateCards`. -/
def stdCard (rank suit : String) : Card :=
  { code := rank ++ suit, rank := rank, suit := suit
    image := "/static/" ++ (rank ++ suit) ++ ".svg" }

/-- The joker card appended (twice per pack) when jokers are enabled. -/
def jokerCard : Card :=
  { code := "joker", rank := "joker", suit := "", image := "/static/joker.svg" }

/-- One iteration of the outer pack loop of `generateCards`: all four suits
in order, thirteen ranks each, then two jokers when enabled. -/
def packCards (jokers : Bool) : List Card :=
  (suits.map fun suit => ranks.map fun rank => stdCard rank suit).flatten
    ++ (if jokers then [jokerCard, jokerCard] else [])

/-- The pack loop of `generateCards`, appending one pack per iteration. -/
def generateCardsAux (jokers : Bool) : Nat → List Card
  | 0 => []
  | n + 1 => generateCardsAux jokers n ++ packCards jokers

/-- Go `generateCards(nbrPaquet int, jokers bool) []Card`: the loop
`for i := 0; i < nbrPaquet; i++` runs `max nbrPaquet 0` times. -/
def generateCards (nbrPaquet : Int) (jokers : Bool) : List Card :=
  generateCardsAux jokers nbrPaquet.toNat

/-- Go `createDeck`: `parts` is the `/`-split of the URL suffix, `deckID`
the freshly generated UUID.  A non-integer first segment leaves the default
of 1 pack; more than 10 packs is rejected; the new row stores the generated
cards as both `cards` and `upcoming` with an empty drawn pile. -/
def createDeck (db : Store) (parts : List String) (deckID : String) :
    Except ApiError (Store × Deck) :=
  let nbrPaquet : Int :=
    match parts.head? with
    | some s =>
      match atoi s with
      | some p => p
      | none => 1
    | none => 1
  let jokers : Bool :=
    match parts[1]? with
    | some s => s == "true"
    | none => false
  if nbrPaquet > 10 then .error .tooManyDecks
  else if (lookupDeck db deckID).isSome then .error .storeFailure
  else
    let cards := generateCards nbrPaquet jokers
    .ok (updateDeck db deckID ⟨cards, [], cards⟩, ⟨deckID, cards, cards.length⟩)

/-- Go `drawCards(req Request)`: parses the count, loads `upcoming`, clamps
the count, slices off the drawn prefix and persists only the new
`upcoming` (the timestamped `drawnWithTime` list is computed but never
written back, exactly as in the source). -/
def drawCards (db : Store) (deckID : String) (param : String) (now : String) :
    Except ApiError (Store × Deck) :=
  match atoi param with
  | none => .error .invalidArgument
  | some nbrCarte =>
    if nbrCarte < 1 then .error .invalidArgument
    else
      match lookupDeck db deckID with
      | none => .error .notFound
      | some dRec =>
        let upcomingCards := dRec.upcoming
        if upcomingCards.length = 0 then .error .emptyDeck
        else
          let n : Nat :=
            if nbrCarte > (upcomingCards.length : Int) then upcomingCards.length
            else nbrCarte.toNat
          let drawnCards := upcomingCards.take n
          let newUpcoming := upcomingCards.drop n
          let drawnWithTime := drawnCards.map fun c => DrawnCard.mk c.code now
          let _ := drawnWithTime
          let db2 := updateDeck db deckID { dRec with upcoming := newUpcoming }
          .ok (db2, ⟨deckID, drawnCards, newUpcoming.length⟩)

/-- The swap closure passed to `rand.Shuffle`; out-of-range indices leave
the list unchanged (Go panics instead, but `rand.Shuffle` only produces
in-range indices). -/
def swapCards (l : List Card) (i j : Nat) : List Card :=
  match l[i]?, l[j]? with
  | some a, some b => (l.set i b).set j a
  | _, _ => l

/-- The loop of `rand.Shuffle`: for `i := n-1; i > 0; i--` swap position
`i` with position `js i`. -/
def shuffleSteps (js : Nat → Nat) : Nat → List Card → List Card
  | 0, l => l
  | i + 1, l => shuffleSteps js i (swapCards l (i + 1) (js (i + 1)))

/-- `rand.Shuffle(len l, swap)` with the random draws supplied by `js`. -/
def randShuffle (js : Nat → Nat) (l : List Card) : List Card :=
  shuffleSteps js (l.length - 1) l

/-- Go `shuffleDeck(req Request)`: loads `upcoming`, shuffles it and
persists the reordered sequence; `piged` and `cards` are untouched. -/
def shuffleDeck (db : Store) (deckID : String) (js : Nat → Nat) :
    Except ApiError (Store × Deck) :=
  match lookupDeck db deckID with
  | none => .error .notFound
  | some dRec =>
    let shuffled := randShuffle js dRec.upcoming
    let db2 := updateDeck db deckID { dRec with upcoming := shuffled }
    .ok (db2, ⟨deckID, shuffled, shuffled.length⟩)

/-- Go `strings.Split(s, ",")` on the character list: every comma starts a
new segment and the empty input yields the single empty segment. -/
def splitComma : List Char → List (List Char)
  | [] => [[]]
  | c :: rest =>
    if c = ',' then [] :: splitComma rest
    else
      match splitComma rest with
      | [] => [[c]]
      | seg :: segs => (c :: seg) :: segs

/-- Go `parseCards`: one `Card` per comma-separated segment, with only the
`code` field populated. -/
def parseCards (cardsStr : String) : List Card :=
  (splitComma cardsStr.toList).map fun seg =>
    { code := String.mk seg, rank := "", suit := "", image := "" }

/-- Go `addCards`: appends the parsed cards to `upcoming`, persists it and
answers with `cards + upcoming` and the new upcoming length. -/
def addCards (db : Store) (deckID : String) (cardsStr : String) :
    Except ApiError (Store × Deck) :=
  match lookupDeck db deckID with
  | none => .error .notFound
  | some dRec =>
    let newCards := parseCards cardsStr
    let upcomingCards := dRec.upcoming ++ newCards
    let db2 := updateDeck db deckID { dRec with upcoming := upcomingCards }
    let allCards := dRec.cards ++ upcomingCards
    .ok (db2, ⟨deckID, allCards, upcomingCards.length⟩)

/-- Go `showDrawnCards`: read-only; count must parse, be non-negative and
not exceed the drawn pile; 0 means the whole pile, otherwise the last
`count` entries. -/
def showDrawnCards (db : Store) (deckID : String) (countStr : String) :
    Except ApiError (Store × List DrawnCard) :=
  match lookupDeck db deckID with
  | none => .error .notFound
  | some dRec =>
    let drawnCards := dRec.piged
    match atoi countStr with
    | none => .error .invalidArgument
    | some count =>
      if count < 0 ∨ count > (drawnCards.length : Int) then .error .invalidArgument
      else if count > 0 then
        .ok (db, drawnCards.drop (drawnCards.length - count.toNat))
      else .ok (db, drawnCards)

/-- Go `showUpcomingCards`: read-only; same count validation against the
upcoming pile; 0 means the whole pile, otherwise the first `count`
entries. -/
def showUpcomingCards (db : Store) (deckID : String) (countStr : String) :
    Except ApiError (Store × List Card) :=
  match lookupDeck db deckID with
  | none => .error .notFound
  | some dRec =>
    let upcomingCards := dRec.upcoming
    match atoi countStr with
    | none => .error .invalidArgument
    | some count =>
      if count < 0 ∨ count > (upcomingCards.length : Int) then .error .invalidArgument
      else if count > 0 then .ok (db, upcomingCards.take count.toNat)
      else .ok (db, upcomingCards)

/-! ### Specification-side definitions and concrete fixtures -/

/-- Specification counterpart of one generated pack, written from the
spec's words (§4.1): four suits h,d,c,s in order, for each the thirteen
ranks 2..10,j,q,k,a, then exactly two jokers (empty suit, rank "joker")
when enabled. -/
def specPack (jokers : Bool) : List Card :=
  ((["h", "d", "c", "s"] : List String).map fun suit =>
      (["2", "3", "4", "5", "6", "7", "8", "9", "10", "j", "q", "k", "a"] :
          List String).map fun rank =>
        { code := rank ++ suit, rank := rank, suit := suit
          image := "/static/" ++ (rank ++ suit) ++ ".svg" }).flatten
    ++ (if jokers then
          [{ code := "joker", rank := "joker", suit := "", image := "/static/joker.svg" },
           { code := "joker", rank := "joker", suit := "", image := "/static/joker.svg" }]
        else [])

/-- Specification counterpart of `generateCards`: `packCount` identical
packs emitted pack by pack. -/
def specGenerate (packCount : Nat) (jokers : Bool) : List Card :=
  (List.replicate packCount (specPack jokers)).flatten

/-- The two of hearts, used in concrete instantiations. -/
def card2h : Card := stdCard "2" "h"

/-- The three of hearts, used in concrete instantiations. -/
def card3h : Card := stdCard "3" "h"

/-- The card `parseCards` builds from an empty segment. -/
def emptyCard : Card := { code := "", rank := "", suit := "", image := "" }

/-! ### Helper lemmas -/

/-- Replacing position `i` (which holds `a`) by `b` is, up to permutation,
removing `a` and inserting `b`. -/
theorem cons_perm_set {α : Type} (l : List α) (i : Nat) (a b : α)
    (h : l[i]? = some a) : (b :: l).Perm (a :: l.set i b) := by
  induction l generalizing i with
  | nil => simp at h
  | cons x xs ih =>
    cases i with
    | zero =>
      simp at h
      subst h
      simpa using List.Perm.swap x b xs
    | succ n =>
      have h' : xs[n]? = some a := by simpa using h
      have hp := (ih n h').cons x
      have h1 : (b :: x :: xs).Perm (x :: b :: xs) := List.Perm.swap x b xs
      have h2 : (x :: a :: xs.set n b).Perm (a :: x :: xs.set n b) :=
        List.Perm.swap a x (xs.set n b)
      have hs : (x :: xs).set (n + 1) b = x :: xs.set n b := rfl
      rw [hs]
      exact (h1.trans hp).trans h2

/-- Writing back the value already stored at position `i` is a no-op. -/
theorem set_self_of_getElem {α : Type} (l : List α) (i : Nat) (a : α)
    (h : l[i]? = some a) : l.set i a = l := by
  induction l generalizing i with
  | nil => simp at h
  | cons x xs ih =>
    cases i with
    | zero => simp at h; simp [h]
    | succ n =>
      have h' : xs[n]? = some a := by simpa using h
      simp [ih n h']

/-- One swap of the shuffle loop permutes the list. -/
theorem swapCards_perm (l : List Card) (i j : Nat) : (swapCards l i j).Perm l := by
  unfold swapCards
  cases hi : l[i]? with
  | none => exact List.Perm.refl l
  | some a =>
    cases hj : l[j]? with
    | none => exact List.Perm.refl l
    | some b =>
      by_cases hij : i = j
      · subst hij
        have hab : a = b := by rw [hi] at hj; injection hj
        subst hab
        show ((l.set i a).set i a).Perm l
        rw [List.set_set, set_self_of_getElem l i a hi]
      · show ((l.set i b).set j a).Perm l
        have hj2 : (l.set i b)[j]? = some b := by
          rw [List.getElem?_set_ne hij]; exact hj
        have p1 := cons_perm_set l i a b hi
        have p2 := cons_perm_set (l.set i b) j b a hj2
        exact ((p1.trans p2).cons_inv).symm

/-- Any number of shuffle-loop iterations permutes the list. -/
theorem shuffleSteps_perm (js : Nat → Nat) (k : Nat) (l : List Card) :
    (shuffleSteps js k l).Perm l := by
  induction k generalizing l with
  | zero => exact List.Perm.refl l
  | succ n ih =>
    exact (ih (swapCards l (n + 1) (js (n + 1)))).trans
      (swapCards_perm l (n + 1) (js (n + 1)))

/-- The full `rand.Shuffle` loop permutes the list. -/
theorem randShuffle_perm (js : Nat → Nat) (l : List Card) :
    (randShuffle js l).Perm l := shuffleSteps_perm js (l.length - 1) l

/-- Reading back the deck just written. -/
theorem lookupDeck_updateDeck_self (db : Store) (deckID : String) (r : DeckRecord) :
    lookupDeck (updateDeck db deckID r) deckID = some r := by
  induction db with
  | nil => simp [updateDeck, lookupDeck]
  | cons kv rest ih =>
    obtain ⟨k, v⟩ := kv
    by_cases hk : k = deckID
    · simp [updateDeck, hk, lookupDeck]
    · simp [updateDeck, hk, lookupDeck, ih]

/-! ### Claim theorems -/

/-- C1: a successful draw is supposed to append the drawn cards, stamped
with the draw time, to the persisted drawn pile and persist both piles.
The code persists only `upcoming`: drawing the single card of a one-card
deck succeeds and removes the card from `upcoming`, yet the persisted
drawn pile is still empty afterwards (the timestamped list is computed but
never written back). -/
theorem drawCards_not_persisting_drawn_pile :
    drawCards [("d", ⟨[card2h], [], [card2h]⟩)] "d" "1" "t0"
      = .ok ([("d", { cards := [card2h], piged := [], upcoming := [] })],
             { id := "d", cards := [card2h], remaining := 0 }) := by
  rfl

/-- C2: drawing is supposed to keep `len(drawn) + len(upcoming)` equal to
the total number of cards ever added.  After drawing the single card of a
one-card deck the persisted piles sum to 0 while the total added is 1. -/
theorem draw_breaks_pile_accounting :
    ∃ db2 d, drawCards [("d", ⟨[card2h], [], [card2h]⟩)] "d" "1" "t0" = .ok (db2, d)
      ∧ (lookupDeck db2 "d").map (fun r => r.piged.length + r.upcoming.length) = some 0
      ∧ ([card2h] : List Card).length = 1 :=
  ⟨[("d", ⟨[card2h], [], []⟩)], ⟨"d", [card2h], 0⟩, rfl, rfl, rfl⟩

/-- C8: draws are serialized (single consumer of `requestChannel` plus the
global mutex), so N concurrent one-card draws execute as N sequential
draws.  On a two-card deck the two sequential draws do hand out each card
exactly once and leave `remaining = 0`, but the persisted drawn pile holds
0 entries, not N = 2, because draws never write the drawn pile. -/
theorem serialized_draws_empty_drawn_pile :
    ∃ db1 d1 db2 d2,
      drawCards [("d", ⟨[card2h, card3h], [], [card2h, card3h]⟩)] "d" "1" "t1"
        = .ok (db1, d1)
      ∧ drawCards db1 "d" "1" "t2" = .ok (db2, d2)
      ∧ d1.cards = [card2h] ∧ d2.cards = [card3h] ∧ d2.remaining = 0
      ∧ lookupDeck db2 "d" = some ⟨[card2h, card3h], [], []⟩ :=
  ⟨[("d", ⟨[card2h, card3h], [], [card3h]⟩)], ⟨"d", [card2h], 1⟩,
   [("d", ⟨[card2h, card3h], [], []⟩)], ⟨"d", [card3h], 0⟩,
   rfl, rfl, rfl, rfl, rfl, rfl⟩

/-- C3: drawing strictly more cards than remain in a non-empty upcoming
pile succeeds, returns exactly all remaining upcoming cards, and persists
an empty upcoming pile (remaining 0). -/
theorem drawCards_overdraw_clamps (db : Store) (deckID s now : String)
    (dRec : DeckRecord) (n : Int)
    (hrec : lookupDeck db deckID = some dRec)
    (hne : dRec.upcoming ≠ [])
    (hn : atoi s = some n)
    (hgt : (dRec.upcoming.length : Int) < n) :
    drawCards db deckID s now
      = .ok (updateDeck db deckID { dRec with upcoming := [] },
             ⟨deckID, dRec.upcoming, 0⟩) := by
  have hpos : 0 < dRec.upcoming.length := List.length_pos.mpr hne
  have hlen : dRec.upcoming.length ≠ 0 := Nat.pos_iff_ne_zero.mp hpos
  have hn1 : ¬ n < 1 := by
    have : (1 : Int) ≤ (dRec.upcoming.length : Int) := by exact_mod_cast hpos
    omega
  simp [drawCards, hn, hn1, hrec, hlen, hgt, List.take_length, List.drop_length]

/-- C3 witness at a concrete input: one-card deck, overdraw with count 5. -/
theorem drawCards_overdraw_clamps_witness :
    lookupDeck [("d", ⟨[card2h], [], [card2h]⟩)] "d" = some ⟨[card2h], [], [card2h]⟩
    ∧ ([card2h] : List Card) ≠ []
    ∧ atoi "5" = some 5
    ∧ ((([card2h] : List Card).length : Int) < 5)
    ∧ drawCards [("d", ⟨[card2h], [], [card2h]⟩)] "d" "5" "t0"
        = .ok (updateDeck [("d", ⟨[card2h], [], [card2h]⟩)] "d" ⟨[card2h], [], []⟩,
               ⟨"d", [card2h], 0⟩) :=
  ⟨by decide, by decide, by decide, by decide,
   drawCards_overdraw_clamps _ "d" "5" "t0" ⟨[card2h], [], [card2h]⟩ 5
     (by decide) (by decide) (by decide) (by decide)⟩

/-- C5: shuffling an existing deck persists a permutation of `upcoming`
(same multiset of cards, same length) and leaves the drawn pile and the
full card list completely unchanged, for every behaviour of the random
source. -/
theorem shuffleDeck_preserves_multiset (db : Store) (deckID : String)
    (js : Nat → Nat) (dRec : DeckRecord)
    (hrec : lookupDeck db deckID = some dRec) :
    ∃ db2 resp, shuffleDeck db deckID js = .ok (db2, resp)
      ∧ ∃ newRec, lookupDeck db2 deckID = some newRec
        ∧ (newRec.upcoming : Multiset Card) = (dRec.upcoming : Multiset Card)
        ∧ newRec.upcoming.length = dRec.upcoming.length
        ∧ newRec.piged = dRec.piged
        ∧ newRec.cards = dRec.cards := by
  refine ⟨updateDeck db deckID { dRec with upcoming := randShuffle js dRec.upcoming },
          ⟨deckID, randShuffle js dRec.upcoming, (randShuffle js dRec.upcoming).length⟩,
          ?_, { dRec with upcoming := randShuffle js dRec.upcoming }, ?_, ?_, ?_, rfl, rfl⟩
  · simp [shuffleDeck, hrec]
  · exact lookupDeck_updateDeck_self db deckID _
  · exact Multiset.coe_eq_coe.mpr (randShuffle_perm js dRec.upcoming)
  · exact (randShuffle_perm js dRec.upcoming).length_eq

/-- C5 witness at a concrete input: two-card deck, oracle always answering 0
(which swaps the two cards). -/
theorem shuffleDeck_preserves_multiset_witness :
    lookupDeck [("d", ⟨[card2h, card3h], [], [card2h, card3h]⟩)] "d"
        = some ⟨[card2h, card3h], [], [card2h, card3h]⟩
    ∧ ∃ db2 resp,
        shuffleDeck [("d", ⟨[card2h, card3h], [], [card2h, card3h]⟩)] "d" (fun _ => 0)
          = .ok (db2, resp)
        ∧ ∃ newRec, lookupDeck db2 "d" = some newRec
          ∧ (newRec.upcoming : Multiset Card)
              = (([card2h, card3h] : List Card) : Multiset Card)
          ∧ newRec.upcoming.length = ([card2h, card3h] : List Card).length
          ∧ newRec.piged = ([] : List DrawnCard)
          ∧ newRec.cards = [card2h, card3h] :=
  ⟨by decide,
   shuffleDeck_preserves_multiset _ "d" (fun _ => 0) ⟨[card2h, card3h], [], [card2h, card3h]⟩
     (by decide)⟩

/-- C4: draw fails with `InvalidArgument` exactly when the count parameter
is not a positive integer; given a positive count it fails with `NotFound`
exactly when the deck is absent and with `EmptyDeck` exactly when the deck
exists with an empty upcoming pile (matching the order of the checks in
the handler); in all remaining cases it succeeds.  Error results carry no
drawn cards by construction. -/
theorem drawCards_error_characterization (db : Store) (deckID s now : String) :
    (drawCards db deckID s now = .error .invalidArgument
        ↔ ¬ ∃ n : Int, atoi s = some n ∧ 1 ≤ n)
    ∧ (drawCards db deckID s now = .error .notFound
        ↔ (∃ n : Int, atoi s = some n ∧ 1 ≤ n) ∧ lookupDeck db deckID = none)
    ∧ (drawCards db deckID s now = .error .emptyDeck
        ↔ (∃ n : Int, atoi s = some n ∧ 1 ≤ n)
          ∧ ∃ dRec, lookupDeck db deckID = some dRec ∧ dRec.upcoming = [])
    ∧ ((∃ res, drawCards db deckID s now = .ok res)
        ↔ (∃ n : Int, atoi s = some n ∧ 1 ≤ n)
          ∧ ∃ dRec, lookupDeck db deckID = some dRec ∧ dRec.upcoming ≠ []) := by
  cases ha : atoi s with
  | none => simp [drawCards, ha]
  | some n =>
    by_cases hn : n < 1
    · have hn' : ¬ (1 : Int) ≤ n := by omega
      simp [drawCards, ha, hn, hn']
    · have hn' : (1 : Int) ≤ n := by omega
      cases hl : lookupDeck db deckID with
      | none => simp [drawCards, ha, hn, hn', hl]
      | some dRec =>
        by_cases hu : dRec.upcoming.length = 0
        · have hu' : dRec.upcoming = [] := List.length_eq_zero.mp hu
          simp [drawCards, ha, hn, hn', hl, hu, hu']
        · have hu' : dRec.upcoming ≠ [] := by
            intro h
            exact hu (by simp [h])
          simp [drawCards, ha, hn, hn', hl, hu, hu']

/-- The pack loop builds `n` identical packs back to back. -/
theorem generateCardsAux_eq (j : Bool) (n : Nat) :
    generateCardsAux j n = (List.replicate n (packCards j)).flatten := by
  induction n with
  | zero => rfl
  | succ m ih =>
    rw [List.replicate_succ', List.flatten_append]
    simp [generateCardsAux, ih]

/-- The generated pack agrees with the pack the spec describes. -/
theorem packCards_eq_specPack (j : Bool) : packCards j = specPack j := by
  cases j <;> rfl

/-- One pack holds 52 cards, plus 2 jokers when enabled. -/
theorem packCards_length (j : Bool) :
    (packCards j).length = 52 + (if j then 2 else 0) := by cases j <;> rfl

/-- Length of the pack loop output. -/
theorem generateCardsAux_length (j : Bool) (n : Nat) :
    (generateCardsAux j n).length = n * (52 + (if j then 2 else 0)) := by
  induction n with
  | zero => simp [generateCardsAux]
  | succ m ih => simp [generateCardsAux, ih, packCards_length, Nat.succ_mul]

/-- Joker count of one pack. -/
theorem packCards_count_joker (j : Bool) :
    (packCards j).count jokerCard = (if j then 2 else 0) := by cases j <;> decide

/-- Joker count of the pack loop output. -/
theorem generateCardsAux_count_joker (j : Bool) (n : Nat) :
    (generateCardsAux j n).count jokerCard = n * (if j then 2 else 0) := by
  induction n with
  | zero => simp [generateCardsAux]
  | succ m ih =>
    simp [generateCardsAux, List.count_append, ih, packCards_count_joker, Nat.succ_mul]
    cases j <;> simp

/-- Every joker-ranked card of a pack is the joker card with empty suit. -/
theorem packCards_joker_shape (j : Bool) :
    ∀ c ∈ packCards j, c.rank = "joker" → c.suit = "" ∧ c = jokerCard := by
  cases j <;> decide

/-- C6: for every pack count in 1..10 and jokers flag, `generateCards` is a
pure function producing exactly `52*packCount` cards plus `2*packCount`
jokers when enabled, emitted pack by pack in the fixed suit order h,d,c,s
and rank order 2..10,j,q,k,a described by `specPack`/`specGenerate`, with
every joker bearing empty suit and rank "joker". -/
theorem generateCards_spec (p : Int) (j : Bool) (h1 : 1 ≤ p) (h2 : p ≤ 10) :
    generateCards p j = specGenerate p.toNat j
    ∧ (generateCards p j).length = 52 * p.toNat + (if j then 2 * p.toNat else 0)
    ∧ (generateCards p j).count jokerCard = (if j then 2 * p.toNat else 0)
    ∧ (∀ c ∈ generateCards p j, c.rank = "joker" → c.suit = "" ∧ c = jokerCard) := by
  refine ⟨?_, ?_, ?_, ?_⟩
  · rw [generateCards, generateCardsAux_eq, packCards_eq_specPack]; rfl
  · rw [generateCards, generateCardsAux_length]; cases j <;> simp <;> ring
  · rw [generateCards, generateCardsAux_count_joker]; cases j <;> simp [Nat.mul_comm]
  · intro c hc hr
    rw [generateCards, generateCardsAux_eq] at hc
    obtain ⟨l, hl, hcl⟩ := List.mem_flatten.mp hc
    have hlp : l = packCards j := List.eq_of_mem_replicate hl
    subst hlp
    exact packCards_joker_shape j c hcl hr

/-- C6 witness at a concrete input: 3 packs with jokers. -/
theorem generateCards_spec_witness :
    ((1 : Int) ≤ 3 ∧ (3 : Int) ≤ 10)
    ∧ (generateCards 3 true = specGenerate (Int.toNat 3) true
        ∧ (generateCards 3 true).length
            = 52 * Int.toNat 3 + (if true then 2 * Int.toNat 3 else 0)
        ∧ (generateCards 3 true).count jokerCard
            = (if true then 2 * Int.toNat 3 else 0)
        ∧ (∀ c ∈ generateCards 3 true, c.rank = "joker" → c.suit = "" ∧ c = jokerCard)) :=
  ⟨⟨by decide, by decide⟩, generateCards_spec 3 true (by decide) (by decide)⟩

/-- C7: for both show operations on an existing deck, a count that does not
parse, is negative, or exceeds the respective pile's length yields
`InvalidArgument`; count 0 returns the entire pile; a positive in-range
count returns the last `count` drawn entries respectively the first
`count` upcoming entries; and both operations leave the store exactly as
given. -/
theorem showCards_characterization (db : Store) (deckID s : String)
    (dRec : DeckRecord) (hrec : lookupDeck db deckID = some dRec) :
    (showDrawnCards db deckID s = .error .invalidArgument
        ↔ ¬ ∃ k : Int, atoi s = some k ∧ 0 ≤ k ∧ k ≤ (dRec.piged.length : Int))
    ∧ (showUpcomingCards db deckID s = .error .invalidArgument
        ↔ ¬ ∃ k : Int, atoi s = some k ∧ 0 ≤ k ∧ k ≤ (dRec.upcoming.length : Int))
    ∧ (atoi s = some 0 →
        showDrawnCards db deckID s = .ok (db, dRec.piged)
        ∧ showUpcomingCards db deckID s = .ok (db, dRec.upcoming))
    ∧ (∀ k : Int, atoi s = some k → 0 < k → k ≤ (dRec.piged.length : Int) →
        showDrawnCards db deckID s
          = .ok (db, dRec.piged.drop (dRec.piged.length - k.toNat)))
    ∧ (∀ k : Int, atoi s = some k → 0 < k → k ≤ (dRec.upcoming.length : Int) →
        showUpcomingCards db deckID s = .ok (db, dRec.upcoming.take k.toNat)) := by
  refine ⟨?_, ?_, ?_, ?_, ?_⟩
  · cases ha : atoi s with
    | none => simp [showDrawnCards, hrec, ha]
    | some k =>
      by_cases hbad : k < 0 ∨ (dRec.piged.length : Int) < k
      · simp only [showDrawnCards, hrec, ha, gt_iff_lt, hbad, if_true, ite_true]
        simp [ha]
        omega
      · by_cases hpos : 0 < k
        · simp [showDrawnCards, hrec, ha, hbad, hpos]
          omega
        · simp [showDrawnCards, hrec, ha, hbad, hpos]
          omega
  · cases ha : atoi s with
    | none => simp [showUpcomingCards, hrec, ha]
    | some k =>
      by_cases hbad : k < 0 ∨ (dRec.upcoming.length : Int) < k
      · simp only [showUpcomingCards, hrec, ha, gt_iff_lt, hbad, if_true, ite_true]
        simp [ha]
        omega
      · by_cases hpos : 0 < k
        · simp [showUpcomingCards, hrec, ha, hbad, hpos]
          omega
        · simp [showUpcomingCards, hrec, ha, hbad, hpos]
          omega
  · intro ha
    have h1 : ¬((0 : Int) < 0 ∨ (dRec.piged.length : Int) < 0) := by omega
    have h2 : ¬((0 : Int) < 0 ∨ (dRec.upcoming.length : Int) < 0) := by omega
    constructor
    · simp [showDrawnCards, hrec, ha, h1]
    · simp [showUpcomingCards, hrec, ha, h2]
  · intro k ha hpos hle
    have hcond : ¬(k < 0 ∨ (dRec.piged.length : Int) < k) := by omega
    simp [showDrawnCards, hrec, ha, hcond, hpos]
  · intro k ha hpos hle
    have hcond : ¬(k < 0 ∨ (dRec.upcoming.length : Int) < k) := by omega
    simp [showUpcomingCards, hrec, ha, hcond, hpos]

/-- C7 witness at a concrete input: deck with two drawn entries and one
upcoming card, count 1 for both shows. -/
theorem showCards_characterization_witness :
    lookupDeck [("d", ⟨[card2h], [⟨"2h", "t1"⟩, ⟨"3h", "t2"⟩], [card2h]⟩)] "d"
        = some ⟨[card2h], [⟨"2h", "t1"⟩, ⟨"3h", "t2"⟩], [card2h]⟩
    ∧ showDrawnCards [("d", ⟨[card2h], [⟨"2h", "t1"⟩, ⟨"3h", "t2"⟩], [card2h]⟩)] "d" "1"
        = .ok ([("d", ⟨[card2h], [⟨"2h", "t1"⟩, ⟨"3h", "t2"⟩], [card2h]⟩)], [⟨"3h", "t2"⟩])
    ∧ showUpcomingCards [("d", ⟨[card2h], [⟨"2h", "t1"⟩, ⟨"3h", "t2"⟩], [card2h]⟩)] "d" "1"
        = .ok ([("d", ⟨[card2h], [⟨"2h", "t1"⟩, ⟨"3h", "t2"⟩], [card2h]⟩)], [card2h]) :=
  ⟨rfl,
   (showCards_characterization
       [("d", ⟨[card2h], [⟨"2h", "t1"⟩, ⟨"3h", "t2"⟩], [card2h]⟩)] "d" "1"
       ⟨[card2h], [⟨"2h", "t1"⟩, ⟨"3h", "t2"⟩], [card2h]⟩ rfl).2.2.2.1
     1 rfl (by decide) (by decide),
   (showCards_characterization
       [("d", ⟨[card2h], [⟨"2h", "t1"⟩, ⟨"3h", "t2"⟩], [card2h]⟩)] "d" "1"
       ⟨[card2h], [⟨"2h", "t1"⟩, ⟨"3h", "t2"⟩], [card2h]⟩ rfl).2.2.2.2
     1 rfl (by decide) (by decide)⟩

/-- C9: deck creation on a fresh identifier only rejects pack counts
strictly above 10: a non-integer first path segment is silently ignored
(behaving as the default of 1 pack), any pack count at most 0 succeeds and
persists a deck with zero cards and remaining 0, and an error occurs
exactly when the parsed pack count exceeds 10. -/
theorem createDeck_pack_count_handling (db : Store) (deckID : String)
    (parts : List String) (hfresh : lookupDeck db deckID = none) :
    (∀ s rest, parts = s :: rest → atoi s = none →
        createDeck db parts deckID = createDeck db ("1" :: rest) deckID)
    ∧ (∀ s rest p, parts = s :: rest → atoi s = some p → p ≤ 0 →
        createDeck db parts deckID
          = .ok (updateDeck db deckID ⟨[], [], []⟩, ⟨deckID, [], 0⟩))
    ∧ (∀ s rest p, parts = s :: rest → atoi s = some p →
        ((∃ e, createDeck db parts deckID = .error e) ↔ 10 < p)) := by
  refine ⟨?_, ?_, ?_⟩
  · intro s rest hp ha
    subst hp
    have h1 : atoi "1" = some 1 := by decide
    simp [createDeck, ha, h1]
  · intro s rest p hp ha hle
    subst hp
    have hno : ¬ (10 : Int) < p := by omega
    have ht : p.toNat = 0 := Int.toNat_of_nonpos hle
    simp [createDeck, ha, hno, hfresh, generateCards, ht, generateCardsAux]
  · intro s rest p hp ha
    subst hp
    by_cases hgt : (10 : Int) < p
    · simp [createDeck, ha, hgt]
    · simp [createDeck, ha, hgt, hfresh]

/-- C9 witness at concrete inputs: non-integer segment "x", pack count -2,
pack count 11, all on an empty store. -/
theorem createDeck_pack_count_handling_witness :
    lookupDeck [] "d" = none
    ∧ createDeck [] ["x"] "d" = createDeck [] ["1"] "d"
    ∧ createDeck [] ["-2"] "d" = .ok (updateDeck [] "d" ⟨[], [], []⟩, ⟨"d", [], 0⟩)
    ∧ ((∃ e, createDeck [] ["11"] "d" = .error e) ↔ (10 : Int) < 11) :=
  ⟨rfl,
   (createDeck_pack_count_handling [] "d" ["x"] rfl).1 "x" [] rfl (by decide),
   (createDeck_pack_count_handling [] "d" ["-2"] rfl).2.1 "-2" [] (-2) rfl (by decide)
     (by decide),
   (createDeck_pack_count_handling [] "d" ["11"] rfl).2.2 "11" [] 11 rfl (by decide)⟩

/-- `strings.Split` never returns an empty list of segments. -/
theorem splitComma_ne_nil (cs : List Char) : splitComma cs ≠ [] := by
  cases cs with
  | nil => simp [splitComma]
  | cons c rest =>
    by_cases hc : c = ','
    · simp [splitComma, hc]
    · cases h : splitComma rest <;> simp [splitComma, hc, h]

/-- The number of comma-separated segments is the comma count plus one. -/
theorem splitComma_length (cs : List Char) :
    (splitComma cs).length = cs.count ',' + 1 := by
  induction cs with
  | nil => rfl
  | cons c rest ih =>
    by_cases hc : c = ','
    · subst hc
      simp [splitComma, ih, List.count_cons]
    · obtain ⟨seg, segs, h⟩ := List.exists_cons_of_ne_nil (splitComma_ne_nil rest)
      rw [h] at ih
      simp only [List.length_cons] at ih
      simp [splitComma, hc, h, List.count_cons]
      omega

/-- C10: `parseCards` yields exactly one card per comma-separated segment
(empty segments included), each card carrying only its code; in
particular, adding an empty `cards` parameter appends exactly one card
with empty code to the upcoming pile. -/
theorem parseCards_segments :
    (∀ s : String, (parseCards s).length = s.toList.count ',' + 1)
    ∧ parseCards "" = [emptyCard]
    ∧ (∀ s : String, ∀ c ∈ parseCards s, c.rank = "" ∧ c.suit = "" ∧ c.image = "")
    ∧ (∀ db deckID dRec, lookupDeck db deckID = some dRec →
        addCards db deckID ""
          = .ok (updateDeck db deckID
                   { dRec with upcoming := dRec.upcoming ++ [emptyCard] },
                 ⟨deckID, dRec.cards ++ (dRec.upcoming ++ [emptyCard]),
                  (dRec.upcoming ++ [emptyCard]).length⟩)) := by
  refine ⟨?_, rfl, ?_, ?_⟩
  · intro s
    simp [parseCards, splitComma_length]
  · intro s c hc
    simp only [parseCards, List.mem_map] at hc
    obtain ⟨seg, hmem, hEq⟩ := hc
    cases hEq
    exact ⟨rfl, rfl, rfl⟩
  · intro db deckID dRec h
    have hp : parseCards "" = [emptyCard] := rfl
    simp only [addCards, h, hp]

/-- C10 witness at a concrete input: adding an empty cards parameter to an
empty deck. -/
theorem parseCards_segments_witness :
    lookupDeck [("d", ⟨[], [], []⟩)] "d" = some ⟨[], [], []⟩
    ∧ addCards [("d", ⟨[], [], []⟩)] "d" ""
        = .ok ([("d", ⟨[], [], [emptyCard]⟩)], ⟨"d", [emptyCard], 1⟩) :=
  ⟨rfl, parseCards_segments.2.2.2 [("d", ⟨[], [], []⟩)] "d" ⟨[], [], []⟩ rfl⟩

/-- C4 witness at a concrete input: valid count 1 against an empty store
yields exactly the NotFound characterization. -/
theorem drawCards_error_characterization_witness :
    drawCards [] "d" "1" "t0" = .error .notFound
      ↔ (∃ n : Int, atoi "1" = some n ∧ 1 ≤ n) ∧ lookupDeck [] "d" = none :=
  (drawCards_error_characterization [] "d" "1" "t0").2.1
